import Mathlib

/-!
# Process-control smoke tests: `mypgr.c` and `testProgram.c`

A shallow embedding of the two user programs of the repository
(`src/nachos/test/mypgr.c`, `src/resource-material/testProgram.c`).  `mypgr.c` is embedded
as written.  `testProgram.c` as written is not a C program (a comma is missing on line 13):
its argument lists are recorded as written, and its statements are embedded with the comma
restored, under a name that says so.

Both programs are straight-line sequences of system calls.  A program is
embedded as a computation over a machine state made of

* the state of whatever serves the system calls (the kernel, absent from the
  sources, is a parameter: `Syscalls σ`),
* the locals of `main`,
* the trace of the calls issued so far, each with what it returned.

A call that never returns (a `join` on a child that never finishes, `halt`)
ends the computation; the trace keeps the call.
-/

namespace Nachos

/-! ## The system-call boundary -/

/-- The `int` variables of `main` whose address is passed to `join`. -/
inductive StatusVar
  | status1
  | status2
  deriving DecidableEq, Repr

/-- One system call issued by a program, with its actual arguments and what it
returned (`none`: the call did not return).  For `join` the result is the
return code and the value stored through the status pointer, when one is
stored. -/
inductive Event
  | readline (size : Nat) (ret : Option (List Char × Int))
  | printf (fmt : String) (args : List Int) (ret : Option Int)
  | exec (image : String) (argc : Int) (argv : List (Option String)) (ret : Option Int)
  | join (pid : Int) (ptr : StatusVar) (ret : Option (Int × Option Int))
  | halt
  deriving DecidableEq, Repr

/-- Modelled from the spec: `syscall.h` is not among the sources; this is the
syscall boundary of the spec's section 6.  `exec(image, argc, argv)` returns
the new process id, `join(id, &status)` returns a completion code and may store
a status through the pointer, `readline` fills a buffer, `printf` prints, and
`halt()` never returns.  Every call may fail to return (`none`). -/
structure Syscalls (σ : Type) where
  readline : σ → Nat → Option ((List Char × Int) × σ)
  printf : σ → String → List Int → Option (Int × σ)
  exec : σ → String → Int → List (Option String) → Option (Int × σ)
  join : σ → Int → Option ((Int × Option Int) × σ)
  halt : σ → σ

/-- A running program: the state of the kernel, the locals of `main`, and the
calls issued so far (oldest first). -/
structure Machine (σ L : Type) where
  kernel : σ
  locals : L
  trace : List Event

/-- A computation of a user program: it transforms the machine and either
yields a value or stops (`none`) at a call that does not return. -/
def Prog (σ L α : Type) : Type := Machine σ L → Machine σ L × Option α

/-- Sequencing of two computations; nothing runs after a call that did not
return. -/
def Prog.bind {σ L α β : Type} (x : Prog σ L α) (f : α → Prog σ L β) : Prog σ L β :=
  fun m =>
    match x m with
    | (m1, some a) => f a m1
    | (m1, none) => (m1, none)

instance {σ L : Type} : Monad (Prog σ L) where
  pure a := fun m => (m, some a)
  bind := Prog.bind

/-- Read the locals of `main`. -/
def getLocals {σ L : Type} : Prog σ L L :=
  fun m => (m, some m.locals)

/-- An assignment to locals of `main`. -/
def assign {σ L : Type} (f : L → L) : Prog σ L Unit :=
  fun m => ({ m with locals := f m.locals }, some ())

/-- The call `readline(buf, size)`; yields the bytes the kernel stores in the buffer and
the return value. -/
def sysReadline {σ L : Type} (K : Syscalls σ) (size : Nat) : Prog σ L (List Char × Int) :=
  fun m =>
    match K.readline m.kernel size with
    | some (r, s) =>
      ({ m with kernel := s, trace := m.trace ++ [Event.readline size (some r)] }, some r)
    | none => ({ m with trace := m.trace ++ [Event.readline size none] }, none)

/-- The call `printf(fmt, args...)`. -/
def sysPrintf {σ L : Type} (K : Syscalls σ) (fmt : String) (args : List Int) : Prog σ L Int :=
  fun m =>
    match K.printf m.kernel fmt args with
    | some (r, s) =>
      ({ m with kernel := s, trace := m.trace ++ [Event.printf fmt args (some r)] }, some r)
    | none => ({ m with trace := m.trace ++ [Event.printf fmt args none] }, none)

/-- The call `exec(image, argc, argv)`; yields the returned process id. -/
def sysExec {σ L : Type} (K : Syscalls σ) (image : String) (argc : Int)
    (argv : List (Option String)) : Prog σ L Int :=
  fun m =>
    match K.exec m.kernel image argc argv with
    | some (r, s) =>
      ({ m with kernel := s, trace := m.trace ++ [Event.exec image argc argv (some r)] }, some r)
    | none => ({ m with trace := m.trace ++ [Event.exec image argc argv none] }, none)

/-- The call `join(pid, &ptr)`; yields the return code and the status stored through the
pointer, when the kernel stores one. -/
def sysJoin {σ L : Type} (K : Syscalls σ) (pid : Int) (ptr : StatusVar) :
    Prog σ L (Int × Option Int) :=
  fun m =>
    match K.join m.kernel pid with
    | some (r, s) =>
      ({ m with kernel := s, trace := m.trace ++ [Event.join pid ptr (some r)] }, some r)
    | none => ({ m with trace := m.trace ++ [Event.join pid ptr none] }, none)

/-- The call `halt()`: it does not return. -/
def sysHalt {σ L : Type} (K : Syscalls σ) : Prog σ L Unit :=
  fun m => ({ m with kernel := K.halt m.kernel, trace := m.trace ++ [Event.halt] }, none)

/-- The bytes of a buffer after the kernel has stored `data` (at most `size` bytes) at its
start. -/
def fillBuffer (buf : List Char) (size : Nat) (data : List Char) : List Char :=
  data.take size ++ buf.drop (data.take size).length

/-! ## `src/nachos/test/mypgr.c` -/

/-- The locals of `main` in `mypgr.c` (lines 17-20, 25, 38).  None has an initialiser:
what they hold before their first assignment is whatever the stack held, so the
initial record is a parameter of every run.  An entry of `execArgs` is `some s`
when it points to the string `s`. -/
structure MypgrLocals where
  b : List Char
  execArgs : List (Option String)
  status1 : Int
  processID : Int
  processID1 : Int
  processID2 : Int
  status2 : Int
  k : Int
  l : Int
  deriving DecidableEq, Repr

/-- The store `join` makes through a status pointer of `mypgr`: the pointed-to variable takes
the stored status, when one is stored. -/
def MypgrLocals.store (v : MypgrLocals) (ptr : StatusVar) (stored : Option Int) : MypgrLocals :=
  match ptr with
  | StatusVar.status1 => { v with status1 := stored.getD v.status1 }
  | StatusVar.status2 => { v with status2 := stored.getD v.status2 }

/-- The function `main` of `mypgr.c`, statement by statement (the commented-out `printf`
lines of the source are not statements). -/
def Mypgr.main {σ : Type} (K : Syscalls σ) : Prog σ MypgrLocals Unit := do
  -- readline(b, 10);
  let r ← sysReadline K 10
  assign fun v => { v with b := fillBuffer v.b 10 r.1 }
  let _ ← sysPrintf K "\n\n********************************** mypgr Program Loading-test **********************************\n\n" []
  let _ ← sysPrintf K "mypgr forking echo.coff and joining... \n" []
  -- processID = exec("echo.coff", 1, execArgs);
  let v ← getLocals
  let p ← sysExec K "echo.coff" 1 v.execArgs
  assign fun v => { v with processID := p }
  -- int k = join(processID, &status1);
  let v ← getLocals
  let j ← sysJoin K v.processID StatusVar.status1
  assign fun v => { v.store StatusVar.status1 j.2 with k := j.1 }
  let v ← getLocals
  let _ ← sysPrintf K "********* Join On Process %d Finished\nStatus Value:  %d    ***************\n"
    [v.processID, v.status1]
  -- processID = exec("halt.coff", 1, execArgs);
  let v ← getLocals
  let p ← sysExec K "halt.coff" 1 v.execArgs
  assign fun v => { v with processID := p }
  -- processID1 = exec("halt.coff", 2, execArgs);
  let v ← getLocals
  let p ← sysExec K "halt.coff" 2 v.execArgs
  assign fun v => { v with processID1 := p }
  -- k = join(processID, &status1);
  let v ← getLocals
  let j ← sysJoin K v.processID StatusVar.status1
  assign fun v => { v.store StatusVar.status1 j.2 with k := j.1 }
  -- int l = join(processID1, &status1);
  let v ← getLocals
  let j ← sysJoin K v.processID1 StatusVar.status1
  assign fun v => { v.store StatusVar.status1 j.2 with l := j.1 }
  -- halt();
  sysHalt K

/-! ## `src/resource-material/testProgram.c` -/

/-- The locals of `main` in `testProgram.c` (lines 5-8, 15), uninitialised like those of
`mypgr`. -/
structure TestProgramLocals where
  b : List Char
  execArgs : List (Option String)
  status1 : Int
  processID : Int
  k : Int
  deriving DecidableEq, Repr

/-- The store `join` makes through the status pointer of `testProgram`; the program has
the one status variable `status1`. -/
def TestProgramLocals.store (v : TestProgramLocals) (stored : Option Int) : TestProgramLocals :=
  { v with status1 := stored.getD v.status1 }

/-- Not the file as written.  Line 13 of `testProgram.c` reads
`exec("echo.coff", 1 execArgs)`: the comma between the count and the vector is missing, a C
compiler rejects the file, and the file as written has no run (the argument lists as
written are `testProgramExecSites`).  This is `main` of `testProgram.c` with that one comma
restored, statement by statement: the program the file would be once the slip is mended.
Nothing proved of it is a statement about a run of the file as written. -/
def TestProgram.mainRepaired {σ : Type} (K : Syscalls σ) : Prog σ TestProgramLocals Unit := do
  -- readline (b,10);
  let r ← sysReadline K 10
  assign fun v => { v with b := fillBuffer v.b 10 r.1 }
  let _ ← sysPrintf K "\n\n**************** Test Program Loading Test **************** \n\n" []
  let _ ← sysPrintf K "testProgram forking echo.coff and joining... \n" []
  -- processID = exec("echo.coff", 1 execArgs);   (as written; read here as `1, execArgs`)
  let v ← getLocals
  let p ← sysExec K "echo.coff" 1 v.execArgs
  assign fun v => { v with processID := p }
  -- int k = join(processID, &status1);
  let v ← getLocals
  let j ← sysJoin K v.processID StatusVar.status1
  assign fun v => { v.store j.2 with k := j.1 }
  let v ← getLocals
  let _ ← sysPrintf K "********* Join On Process %d Finished \nStatus Value: %d   ********************\n"
    [v.processID, v.status1]
  let _ ← sysPrintf K "testProgram forking halt.coff and joining... \n" []
  -- processID = exec("halt.coff", 1, execArgs);
  let v ← getLocals
  let p ← sysExec K "halt.coff" 1 v.execArgs
  assign fun v => { v with processID := p }
  -- k = join(processID, &status1);
  let v ← getLocals
  let j ← sysJoin K v.processID StatusVar.status1
  assign fun v => { v.store j.2 with k := j.1 }
  let v ← getLocals
  let _ ← sysPrintf K "******* Join On Process %d Finished\nStatus Value: %d   ****************** \n"
    [v.processID, v.status1]
  -- halt();
  sysHalt K

/-! ## Runs against an arbitrary environment -/

/-- An environment that answers each call by its ordinal among the calls of its kind:
`exec n` is what the `n`-th `exec` returns, `join n` the return code of the `n`-th `join`
and the status it stores, if any; `none` is a call that does not return.  A straight-line
program meets no other behaviour of a deterministic kernel. -/
structure Oracle where
  readline : Nat → Option (List Char × Int)
  printf : Nat → Option Int
  exec : Nat → Option Int
  join : Nat → Option (Int × Option Int)

/-- How many calls of each kind the environment has answered. -/
structure Counters where
  readlines : Nat
  printfs : Nat
  execs : Nat
  joins : Nat
  deriving DecidableEq, Repr

/-- The system calls as an `Oracle` serves them. -/
def Oracle.syscalls (o : Oracle) : Syscalls Counters where
  readline c _ := (o.readline c.readlines).map fun r => (r, { c with readlines := c.readlines + 1 })
  printf c _ _ := (o.printf c.printfs).map fun r => (r, { c with printfs := c.printfs + 1 })
  exec c _ _ _ := (o.exec c.execs).map fun r => (r, { c with execs := c.execs + 1 })
  join c _ := (o.join c.joins).map fun r => (r, { c with joins := c.joins + 1 })
  halt c := c

/-- The machine at the end of a run of `mypgr` from the locals `init`. -/
def runMypgr (o : Oracle) (init : MypgrLocals) : Machine Counters MypgrLocals :=
  (Mypgr.main o.syscalls { kernel := ⟨0, 0, 0, 0⟩, locals := init, trace := [] }).1

/-- The machine at the end of a run of `TestProgram.mainRepaired`, the mended `testProgram`,
from the locals `init`. -/
def runTestProgramRepaired (o : Oracle) (init : TestProgramLocals) :
    Machine Counters TestProgramLocals :=
  (TestProgram.mainRepaired o.syscalls { kernel := ⟨0, 0, 0, 0⟩, locals := init, trace := [] }).1

/-- Every call the environment is asked returns. -/
def Oracle.Returns (o : Oracle) : Prop :=
  (∀ n, (o.readline n).isSome) ∧ (∀ n, (o.printf n).isSome) ∧
    (∀ n, (o.exec n).isSome) ∧ (∀ n, (o.join n).isSome)

/-! ## Observations on traces -/

/-- The process-control calls: `exec`, `join` and `halt` (not `readline`, not `printf`). -/
def Event.isControl : Event → Bool
  | Event.exec _ _ _ _ => true
  | Event.join _ _ _ => true
  | Event.halt => true
  | _ => false

/-- The process-control calls of a trace, in the order issued. -/
def controlCalls (t : List Event) : List Event :=
  t.filter Event.isControl

/-- The call of an event with its result forgotten. -/
def Event.issued : Event → Event
  | Event.readline size _ => Event.readline size none
  | Event.printf fmt args _ => Event.printf fmt args none
  | Event.exec image argc argv _ => Event.exec image argc argv none
  | Event.join pid ptr _ => Event.join pid ptr none
  | Event.halt => Event.halt

/-- The values the `exec` calls of a trace returned, in order. -/
def execReturns : List Event → List Int
  | [] => []
  | Event.exec _ _ _ (some r) :: t => r :: execReturns t
  | _ :: t => execReturns t

/-- The process ids the `join` calls of a trace were given, in order. -/
def joinTargets : List Event → List Int
  | [] => []
  | Event.join pid _ _ :: t => pid :: joinTargets t
  | _ :: t => joinTargets t

/-- The status pointers the `join` calls of a trace were given, in order. -/
def joinPointers : List Event → List StatusVar
  | [] => []
  | Event.join _ ptr _ :: t => ptr :: joinPointers t
  | _ :: t => joinPointers t

/-- The argument count and argument vector of each `exec` call of a trace, in order. -/
def execArguments : List Event → List (Int × List (Option String))
  | [] => []
  | Event.exec _ argc argv _ :: t => (argc, argv) :: execArguments t
  | _ :: t => execArguments t

/-- Every `exec` of the trace is given the argument vector `a`. -/
def execVectorsAre (a : List (Option String)) : List Event → Bool
  | [] => true
  | Event.exec _ _ argv _ :: t => decide (argv = a) && execVectorsAre a t
  | _ :: t => execVectorsAre a t

/-- Every value an `exec` of the trace returned is the target of a `join` issued after that
`exec`. -/
def execReturnsJoined : List Event → Bool
  | [] => true
  | Event.exec _ _ _ (some r) :: t => (joinTargets t).contains r && execReturnsJoined t
  | _ :: t => execReturnsJoined t

/-- Some `exec` of the trace returned a negative value and a later `join` was given that
value. -/
def joinsFailedExec : List Event → Bool
  | [] => false
  | Event.exec _ _ _ (some r) :: t =>
    (decide (r < 0) && (joinTargets t).contains r) || joinsFailedExec t
  | _ :: t => joinsFailedExec t

/-- The argument vector holds a string in each of its first `argc` entries. -/
def argvCarries (a : Int × List (Option String)) : Bool :=
  decide (0 ≤ a.1) && decide (a.1.toNat ≤ a.2.length) && (a.2.take a.1.toNat).all Option.isSome

/-- A token of an actual-argument list. -/
inductive Tok
  | str (s : String)
  | num (n : Nat)
  | ident (x : String)
  deriving DecidableEq, Repr

/-- The actual-argument list of a call as the source writes it: the source line and the
token runs that the commas separate. -/
structure CallSite where
  line : Nat
  slots : List (List Tok)
  deriving DecidableEq, Repr

/-- The three `exec` call sites of `mypgr.c` (lines 24, 29 and 33). -/
def mypgrExecSites : List CallSite :=
  [⟨24, [[Tok.str "echo.coff"], [Tok.num 1], [Tok.ident "execArgs"]]⟩,
   ⟨29, [[Tok.str "halt.coff"], [Tok.num 1], [Tok.ident "execArgs"]]⟩,
   ⟨33, [[Tok.str "halt.coff"], [Tok.num 2], [Tok.ident "execArgs"]]⟩]

/-- The two `exec` call sites of `testProgram.c` (lines 13 and 20).  Line 13 is
`exec("echo.coff", 1 execArgs)`: no comma stands between `1` and `execArgs`. -/
def testProgramExecSites : List CallSite :=
  [⟨13, [[Tok.str "echo.coff"], [Tok.num 1, Tok.ident "execArgs"]]⟩,
   ⟨20, [[Tok.str "halt.coff"], [Tok.num 1], [Tok.ident "execArgs"]]⟩]

/-- The locals of `testProgram` that hold what the locals of `mypgr` of the same name
hold. -/
def MypgrLocals.toTestProgram (v : MypgrLocals) : TestProgramLocals :=
  { b := v.b, execArgs := v.execArgs, status1 := v.status1, processID := v.processID, k := v.k }

/-- A sample environment in which every call returns: the `n`-th `exec` returns `n + 1`,
the `n`-th `join` returns 0 and stores the status `10 + n`. -/
def sampleOracle : Oracle where
  readline _ := some (['o', 'k'], 2)
  printf _ := some 0
  exec n := some (n + 1)
  join n := some (0, some (10 + n))

/-- A sample environment in which every `exec` fails with -1 and every `join` fails with -1,
storing nothing. -/
def failedExecOracle : Oracle where
  readline _ := some ([], 0)
  printf _ := some 0
  exec _ := some (-1)
  join _ := some (-1, none)

/-- Sample initial locals of `mypgr`: no entry of `execArgs` points to a string. -/
def sampleLocals : MypgrLocals where
  b := List.replicate 10 'x'
  execArgs := List.replicate 256 none
  status1 := 71
  processID := 72
  processID1 := 73
  processID2 := 74
  status2 := 75
  k := 76
  l := 77

/-- Sample initial locals of the mended `testProgram`. -/
def sampleTestLocals : TestProgramLocals :=
  sampleLocals.toTestProgram

/-! ## The process-control core of the spec

The kernel that serves `exec`, `join` and `halt` is not among the sources.  The definitions
of this section follow sections 3, 4, 5 and 7 of the spec. -/

/-- Modelled from the spec: the lifecycle of a ProcessRecord (section 3), the kernel's
record type being absent from the sources: Running, then Finished, then Reaped.  The exit
status is carried by `finished`, the state in which the spec sets it. -/
inductive ProcState
  | running
  | finished (exitStatus : Int)
  | reaped
  deriving DecidableEq, Repr

/-- Modelled from the spec: a ProcessRecord (section 3), absent from the sources: its id,
the image it runs, its arguments, its state and the id of its creator (`none` for the root
process). -/
structure ProcessRecord where
  id : Nat
  programImage : String
  argumentVector : List (Option String)
  state : ProcState
  ownerParentId : Option Nat
  deriving DecidableEq, Repr

/-- Modelled from the spec: the error taxonomy of section 7, absent from the sources. -/
inductive CoreError
  | imageNotFound
  | resourceExhausted
  | notAChild
  | alreadyReaped
  deriving DecidableEq, Repr

/-- Modelled from the spec: the Process Control Core (sections 2 to 4), absent from the
sources: the table of ProcessRecords, the next id to assign (ids are assigned monotonically
and never reused), the images that can be loaded and the number of process slots. -/
structure Core where
  table : List ProcessRecord
  nextId : Nat
  images : List String
  slots : Nat
  deriving DecidableEq, Repr

/-- Modelled from the spec: resolving an id to the ProcessRecord of the absent kernel's
table (the WaitTicket of section 3). -/
def Core.lookup (c : Core) (id : Nat) : Option ProcessRecord :=
  c.table.find? fun r => r.id == id

/-- Modelled from the spec: the number of processes of the absent kernel that execute
concurrently, those in state Running. -/
def Core.running (c : Core) : Nat :=
  c.table.countP fun r => r.state == ProcState.running

/-- Modelled from the spec: the operation `create` of section 4.1, absent from the sources.
It fails with ImageNotFound when the image cannot be loaded and with ResourceExhausted when
no slot is free; otherwise it allocates a Running record under a fresh id and returns the
id. -/
def Core.create (c : Core) (caller : Nat) (image : String) (args : List (Option String)) :
    Except CoreError Nat × Core :=
  if c.images.contains image = false then (Except.error CoreError.imageNotFound, c)
  else if c.slots ≤ c.running then (Except.error CoreError.resourceExhausted, c)
  else
    (Except.ok c.nextId,
      { c with
        table := c.table ++ [{ id := c.nextId, programImage := image, argumentVector := args,
                               state := ProcState.running, ownerParentId := some caller }]
        nextId := c.nextId + 1 })

/-- Modelled from the spec: the operation `terminateSelf` of section 4.1, absent from the
sources: the Running record of the caller becomes Finished with the exit code. -/
def Core.terminateSelf (c : Core) (self : Nat) (exitCode : Int) : Core :=
  { c with
    table := c.table.map fun r =>
      if r.id = self ∧ r.state = ProcState.running then
        { r with state := ProcState.finished exitCode }
      else r }

/-- Modelled from the spec: the transition Finished to Reaped of section 3, in the absent
kernel. -/
def Core.reap (c : Core) (id : Nat) : Core :=
  { c with
    table := c.table.map fun r => if r.id = id then { r with state := ProcState.reaped } else r }

/-- Modelled from the spec: what one attempt of the absent kernel's `wait` gives: the exit
status, or the target still runs, or an error. -/
inductive WaitOutcome
  | status (exitStatus : Int)
  | blocked
  | failed (e : CoreError)
  deriving DecidableEq, Repr

/-- Modelled from the spec: the operation `wait` of section 4.1, absent from the sources.
It fails with NotAChild when the id is not a direct child of the caller and with
AlreadyReaped when a prior wait consumed it; on a Finished child it delivers the exit status
and reaps the record; on a Running child the caller stays suspended. -/
def Core.wait (c : Core) (caller id : Nat) : WaitOutcome × Core :=
  match c.lookup id with
  | none => (WaitOutcome.failed CoreError.notAChild, c)
  | some r =>
    if r.ownerParentId ≠ some caller then (WaitOutcome.failed CoreError.notAChild, c)
    else
      match r.state with
      | ProcState.running => (WaitOutcome.blocked, c)
      | ProcState.finished s => (WaitOutcome.status s, c.reap id)
      | ProcState.reaped => (WaitOutcome.failed CoreError.alreadyReaped, c)

/-- Modelled from the spec: the operation `haltSystem` of section 4.1, absent from the
sources: all execution stops and the unreaped statuses are discarded. -/
def Core.haltSystem (c : Core) : Core :=
  { c with table := [] }

/-- Modelled from the spec: an operation on the absent kernel's core, for sequences of
operations. -/
inductive CoreOp
  | create (caller : Nat) (image : String) (args : List (Option String))
  | terminateSelf (self : Nat) (exitCode : Int)
  | wait (caller id : Nat)
  deriving DecidableEq, Repr

/-- Modelled from the spec: one operation applied to the absent kernel's core, with the id
it returned when it is a successful `create`. -/
def Core.step (c : Core) : CoreOp → Option Nat × Core
  | CoreOp.create caller image args =>
    match c.create caller image args with
    | (Except.ok id, c') => (some id, c')
    | (Except.error _, c') => (none, c')
  | CoreOp.terminateSelf self exitCode => (none, c.terminateSelf self exitCode)
  | CoreOp.wait caller id => (none, (c.wait caller id).2)

/-- Modelled from the spec: the ids that the successful `create` calls of a sequence of
operations on the absent kernel's core returned, in order. -/
def Core.createdIds (c : Core) : List CoreOp → List Nat
  | [] => []
  | op :: ops =>
    match (c.step op).1 with
    | some id => id :: Core.createdIds (c.step op).2 ops
    | none => Core.createdIds (c.step op).2 ops

/-- Modelled from the spec: the absent kernel's core after a sequence of operations. -/
def Core.run (c : Core) (ops : List CoreOp) : Core :=
  ops.foldl (fun c op => (c.step op).2) c

/-- Modelled from the spec: the invariant of section 3 on the absent kernel's table: the
ids of the records are pairwise distinct, and all were assigned before `nextId`. -/
def Core.WellFormed (c : Core) : Prop :=
  (c.table.map fun r => r.id).Nodup ∧ ∀ r ∈ c.table, r.id < c.nextId

/-- Modelled from the spec: the absent kernel as one user process meets it: the core, the
id of the process that runs the program, and the terminations still to come, in the order
in which they happen (process id and exit code): the scheduler's choice of section 5. -/
structure World where
  core : Core
  self : Nat
  exits : List (Nat × Int)
  deriving DecidableEq, Repr

/-- Modelled from the spec: the blocking `wait` of sections 4.1 and 5 in the absent
kernel.  While the target runs the caller stays suspended and the next termination of the
schedule happens; a target that never finishes blocks the caller forever (`none`).  The
result is the completion code of `join` (0, or -1 on error) with the status delivered. -/
def joinLoop (self id : Nat) : Core → List (Nat × Int) →
    Option ((Int × Option Int) × Core × List (Nat × Int))
  | c, [] =>
    match c.wait self id with
    | (WaitOutcome.status s, c') => some ((0, some s), c', [])
    | (WaitOutcome.failed _, c') => some ((-1, none), c', [])
    | (WaitOutcome.blocked, _) => none
  | c, (p, exitCode) :: rest =>
    match c.wait self id with
    | (WaitOutcome.status s, c') => some ((0, some s), c', (p, exitCode) :: rest)
    | (WaitOutcome.failed _, c') => some ((-1, none), c', (p, exitCode) :: rest)
    | (WaitOutcome.blocked, _) => joinLoop self id (c.terminateSelf p exitCode) rest

/-- Modelled from the spec: what `exec` returns for a result of the absent kernel's
`create`: the new process id, or the negative sentinel -1 for an error (section 7). -/
def execCode : Except CoreError Nat → Int
  | Except.ok id => (id : Int)
  | Except.error _ => -1

/-- Modelled from the spec: the syscall boundary of section 6 served by the core.  `exec`
creates a process with the first `argc` entries of the vector and returns its id, or the
negative sentinel on an error; `join` on a negative id fails, and otherwise waits; `halt`
halts the system; `readline` and `printf`, out of scope in the spec, return at once. -/
def World.syscalls : Syscalls World where
  readline w _ := some (([], 0), w)
  printf w _ _ := some (0, w)
  exec w image argc argv :=
    some (execCode (w.core.create w.self image (argv.take argc.toNat)).1,
      { w with core := (w.core.create w.self image (argv.take argc.toNat)).2 })
  join w pid :=
    if pid < 0 then some ((-1, none), w)
    else
      (joinLoop w.self pid.toNat w.core w.exits).map fun r =>
        (r.1, { w with core := r.2.1, exits := r.2.2 })
  halt w := { w with core := w.core.haltSystem, exits := [] }

/-- Modelled from the spec: the absent kernel right after boot: the root process, of id 0
and without owner (its image name is not recorded), runs the program; ids from 1 on are
free. -/
def World.boot (images : List String) (slots : Nat) (exits : List (Nat × Int)) : World where
  core :=
    { table := [{ id := 0, programImage := "", argumentVector := [],
                  state := ProcState.running, ownerParentId := none }]
      nextId := 1
      images := images
      slots := slots }
  self := 0
  exits := exits

/-- The machine at the end of a run of `mypgr` as a process of the world `w`. -/
def runMypgrOn (w : World) (init : MypgrLocals) : Machine World MypgrLocals :=
  (Mypgr.main World.syscalls { kernel := w, locals := init, trace := [] }).1

/-- The return code and stored status of each `join` of a trace that returned, with the id
joined, in order. -/
def joinResults : List Event → List (Int × Int × Option Int)
  | [] => []
  | Event.join pid _ (some r) :: t => (pid, r.1, r.2) :: joinResults t
  | _ :: t => joinResults t

/-- A sample core: the core right after boot, with both images loadable and three slots. -/
def sampleCore : Core :=
  (World.boot ["echo.coff", "halt.coff"] 3 []).core

/-- A sample sequence of operations of the root process: two creations, the termination of
both children (the second first), a creation that finds no image, the two waits, and a
third creation. -/
def sampleOps : List CoreOp :=
  [CoreOp.create 0 "halt.coff" [], CoreOp.create 0 "halt.coff" [],
   CoreOp.terminateSelf 2 6, CoreOp.terminateSelf 1 5, CoreOp.create 0 "none.coff" [],
   CoreOp.wait 0 1, CoreOp.wait 0 2, CoreOp.create 0 "echo.coff" []]

/-! ## The runs, explicitly -/

theorem runMypgr_eq (o : Oracle) (init : MypgrLocals) (rl : List Char × Int) (p0 p1 p2 : Int)
    (id1 id2 id3 : Int) (j1 j2 j3 : Int × Option Int)
    (hr : o.readline 0 = some rl) (hp0 : o.printf 0 = some p0) (hp1 : o.printf 1 = some p1)
    (hp2 : o.printf 2 = some p2)
    (h1 : o.exec 0 = some id1) (h2 : o.exec 1 = some id2) (h3 : o.exec 2 = some id3)
    (hj1 : o.join 0 = some j1) (hj2 : o.join 1 = some j2) (hj3 : o.join 2 = some j3) :
    runMypgr o init =
      { kernel := ⟨1, 3, 3, 3⟩
        locals := { init with
          b := fillBuffer init.b 10 rl.1
          status1 := j3.2.getD (j2.2.getD (j1.2.getD init.status1))
          processID := id2
          processID1 := id3
          k := j2.1
          l := j3.1 }
        trace := [Event.readline 10 (some rl),
          Event.printf "\n\n********************************** mypgr Program Loading-test **********************************\n\n" [] (some p0),
          Event.printf "mypgr forking echo.coff and joining... \n" [] (some p1),
          Event.exec "echo.coff" 1 init.execArgs (some id1),
          Event.join id1 StatusVar.status1 (some j1),
          Event.printf "********* Join On Process %d Finished\nStatus Value:  %d    ***************\n"
            [id1, j1.2.getD init.status1] (some p2),
          Event.exec "halt.coff" 1 init.execArgs (some id2),
          Event.exec "halt.coff" 2 init.execArgs (some id3),
          Event.join id2 StatusVar.status1 (some j2),
          Event.join id3 StatusVar.status1 (some j3),
          Event.halt] } := by
  simp [runMypgr, Mypgr.main, bind, Prog.bind, sysReadline, sysPrintf, sysExec, sysJoin, sysHalt,
    getLocals, assign, Oracle.syscalls, MypgrLocals.store, hr, hp0, hp1, hp2, h1, h2, h3, hj1,
    hj2, hj3]

theorem runTestProgramRepaired_eq (o : Oracle) (init : TestProgramLocals) (rl : List Char × Int)
    (p0 p1 p2 p3 p4 : Int) (id1 id2 : Int) (j1 j2 : Int × Option Int)
    (hr : o.readline 0 = some rl) (hp0 : o.printf 0 = some p0) (hp1 : o.printf 1 = some p1)
    (hp2 : o.printf 2 = some p2) (hp3 : o.printf 3 = some p3) (hp4 : o.printf 4 = some p4)
    (h1 : o.exec 0 = some id1) (h2 : o.exec 1 = some id2)
    (hj1 : o.join 0 = some j1) (hj2 : o.join 1 = some j2) :
    runTestProgramRepaired o init =
      { kernel := ⟨1, 5, 2, 2⟩
        locals := { init with
          b := fillBuffer init.b 10 rl.1
          status1 := j2.2.getD (j1.2.getD init.status1)
          processID := id2
          k := j2.1 }
        trace := [Event.readline 10 (some rl),
          Event.printf "\n\n**************** Test Program Loading Test **************** \n\n" [] (some p0),
          Event.printf "testProgram forking echo.coff and joining... \n" [] (some p1),
          Event.exec "echo.coff" 1 init.execArgs (some id1),
          Event.join id1 StatusVar.status1 (some j1),
          Event.printf "********* Join On Process %d Finished \nStatus Value: %d   ********************\n"
            [id1, j1.2.getD init.status1] (some p2),
          Event.printf "testProgram forking halt.coff and joining... \n" [] (some p3),
          Event.exec "halt.coff" 1 init.execArgs (some id2),
          Event.join id2 StatusVar.status1 (some j2),
          Event.printf "******* Join On Process %d Finished\nStatus Value: %d   ****************** \n"
            [id2, j2.2.getD (j1.2.getD init.status1)] (some p4),
          Event.halt] } := by
  simp [runTestProgramRepaired, TestProgram.mainRepaired, bind, Prog.bind, sysReadline, sysPrintf, sysExec, sysJoin,
    sysHalt, getLocals, assign, Oracle.syscalls, TestProgramLocals.store, hr, hp0, hp1, hp2, hp3,
    hp4, h1, h2, hj1, hj2]

theorem Oracle.Returns.answers {o : Oracle} (h : o.Returns) :
    (∀ n, ∃ r, o.readline n = some r) ∧ (∀ n, ∃ r, o.printf n = some r) ∧
      (∀ n, ∃ r, o.exec n = some r) ∧ (∀ n, ∃ r, o.join n = some r) :=
  ⟨fun n => Option.isSome_iff_exists.mp (h.1 n), fun n => Option.isSome_iff_exists.mp (h.2.1 n),
    fun n => Option.isSome_iff_exists.mp (h.2.2.1 n),
    fun n => Option.isSome_iff_exists.mp (h.2.2.2 n)⟩

theorem sampleOracle_returns : sampleOracle.Returns :=
  ⟨fun _ => rfl, fun _ => rfl, fun _ => rfl, fun _ => rfl⟩

theorem failedExecOracle_returns : failedExecOracle.Returns :=
  ⟨fun _ => rfl, fun _ => rfl, fun _ => rfl, fun _ => rfl⟩

theorem sampleLocals_execArgs : sampleLocals.execArgs = List.replicate 256 none :=
  rfl

theorem sampleTestLocals_execArgs : sampleTestLocals.execArgs = List.replicate 256 none :=
  rfl

theorem argvCarries_unset (c : Int) (m : Nat) (hc : 0 < c) (hm : 0 < m) :
    argvCarries (c, List.replicate m none) = false := by
  obtain ⟨k, rfl⟩ : ∃ k : Nat, c = ((k + 1 : Nat) : Int) := ⟨(c - 1).toNat, by omega⟩
  obtain ⟨m, rfl⟩ : ∃ j : Nat, m = j + 1 := ⟨m - 1, by omega⟩
  simp [argvCarries, List.take_replicate, List.replicate_succ]

/-! ## Lemmas on the core -/

theorem Core.create_ok {c c' : Core} {caller : Nat} {image : String}
    {args : List (Option String)} {id : Nat}
    (h : c.create caller image args = (Except.ok id, c')) :
    id = c.nextId ∧ c'.nextId = c.nextId + 1 ∧
      c'.table = c.table ++ [{ id := c.nextId, programImage := image, argumentVector := args,
                               state := ProcState.running, ownerParentId := some caller }] := by
  unfold Core.create at h
  split at h
  · simp at h
  · split at h
    · simp at h
    · simp only [Prod.mk.injEq, Except.ok.injEq] at h
      obtain ⟨h1, h2⟩ := h
      subst h2
      exact ⟨h1.symm, rfl, rfl⟩

theorem Core.create_error {c : Core} {caller : Nat} {image : String}
    {args : List (Option String)} {e : CoreError}
    (h : (c.create caller image args).1 = Except.error e) :
    (c.create caller image args).2 = c := by
  unfold Core.create at h ⊢
  by_cases h1 : c.images.contains image = false
  · rw [if_pos h1]
  · rw [if_neg h1] at h ⊢
    by_cases h2 : c.slots ≤ c.running
    · rw [if_pos h2]
    · rw [if_neg h2] at h
      simp at h

theorem Core.create_nextId_le (c : Core) (caller : Nat) (image : String)
    (args : List (Option String)) : c.nextId ≤ (c.create caller image args).2.nextId := by
  unfold Core.create
  split
  · exact Nat.le_refl _
  · split
    · exact Nat.le_refl _
    · exact Nat.le_succ _

theorem Core.terminateSelf_nextId (c : Core) (self : Nat) (exitCode : Int) :
    (c.terminateSelf self exitCode).nextId = c.nextId :=
  rfl

theorem Core.wait_nextId (c : Core) (caller id : Nat) :
    (c.wait caller id).2.nextId = c.nextId := by
  unfold Core.wait
  split
  · rfl
  · split
    · rfl
    · split <;> rfl

theorem Core.terminateSelf_ids (c : Core) (self : Nat) (exitCode : Int) :
    (c.terminateSelf self exitCode).table.map (fun r => r.id) = c.table.map fun r => r.id := by
  simp only [Core.terminateSelf, List.map_map]
  apply List.map_congr_left
  intro r _
  simp only [Function.comp]
  split <;> rfl

theorem Core.reap_ids (c : Core) (id : Nat) :
    (c.reap id).table.map (fun r => r.id) = c.table.map fun r => r.id := by
  simp only [Core.reap, List.map_map]
  apply List.map_congr_left
  intro r _
  simp only [Function.comp]
  split <;> rfl

theorem Core.wait_ids (c : Core) (caller id : Nat) :
    (c.wait caller id).2.table.map (fun r => r.id) = c.table.map fun r => r.id := by
  unfold Core.wait
  split
  · rfl
  · split
    · rfl
    · split
      · rfl
      · exact Core.reap_ids c id
      · rfl

theorem Core.step_nextId_le (c : Core) (op : CoreOp) : c.nextId ≤ (c.step op).2.nextId := by
  cases op with
  | create caller image args =>
    have h := Core.create_nextId_le c caller image args
    rcases hcr : c.create caller image args with ⟨r, c'⟩
    rw [hcr] at h
    cases r <;> simpa only [Core.step, hcr] using h
  | terminateSelf self exitCode => exact Nat.le_refl _
  | wait caller id => exact Nat.le_of_eq (Core.wait_nextId c caller id).symm

theorem Core.step_created {c : Core} {op : CoreOp} {id : Nat} (h : (c.step op).1 = some id) :
    id = c.nextId ∧ (c.step op).2.nextId = c.nextId + 1 := by
  cases op with
  | create caller image args =>
    rcases hcr : c.create caller image args with ⟨r, c'⟩
    cases r with
    | error e => simp [Core.step, hcr] at h
    | ok id' =>
      simp only [Core.step, hcr, Option.some.injEq] at h ⊢
      subst h
      exact ⟨(Core.create_ok hcr).1, (Core.create_ok hcr).2.1⟩
  | terminateSelf self exitCode => simp [Core.step] at h
  | wait caller id => simp [Core.step] at h

theorem Core.step_wellFormed {c : Core} (op : CoreOp) (h : c.WellFormed) :
    (c.step op).2.WellFormed := by
  have hmem : ∀ c' : Core, (c'.table.map fun r => r.id) = (c.table.map fun r => r.id) →
      c'.nextId = c.nextId → c'.WellFormed := by
    intro c' hids hn
    refine ⟨hids ▸ h.1, ?_⟩
    intro r hr
    have : r.id ∈ c'.table.map fun r => r.id := List.mem_map_of_mem _ hr
    rw [hids] at this
    obtain ⟨r', hr', hid⟩ := List.mem_map.mp this
    rw [hn, ← hid]
    exact h.2 r' hr'
  cases op with
  | create caller image args =>
    rcases hcr : c.create caller image args with ⟨r, c'⟩
    cases r with
    | ok id =>
      simp only [Core.step, hcr]
      obtain ⟨-, hn, ht⟩ := Core.create_ok hcr
      refine ⟨?_, ?_⟩
      · rw [ht, List.map_append, List.nodup_append]
        refine ⟨h.1, by simp, ?_⟩
        intro x hx hx'
        simp only [List.map_cons, List.map_nil, List.mem_singleton] at hx'
        obtain ⟨r, hr, hid⟩ := List.mem_map.mp hx
        have := h.2 r hr
        omega
      · intro r hr
        rw [ht, List.mem_append] at hr
        rw [hn]
        rcases hr with hr | hr
        · exact Nat.lt_succ_of_lt (h.2 r hr)
        · simp only [List.mem_singleton] at hr
          subst hr
          exact Nat.lt_succ_self _
    | error e =>
      simp only [Core.step, hcr]
      have hc : (c.create caller image args).2 = c :=
        Core.create_error (e := e) (by rw [hcr])
      rw [hcr] at hc
      have hc' : c' = c := hc
      rw [hc']
      exact h
  | terminateSelf self exitCode =>
    exact hmem _ (Core.terminateSelf_ids c self exitCode) rfl
  | wait caller id =>
    exact hmem _ (Core.wait_ids c caller id) (Core.wait_nextId c caller id)

theorem Core.run_wellFormed (ops : List CoreOp) :
    ∀ c : Core, c.WellFormed → (c.run ops).WellFormed := by
  induction ops with
  | nil => intro c h; exact h
  | cons op ops ih =>
    intro c h
    exact ih _ (Core.step_wellFormed op h)

theorem Core.createdIds_ge (ops : List CoreOp) :
    ∀ c : Core, ∀ id ∈ c.createdIds ops, c.nextId ≤ id := by
  induction ops with
  | nil => intro c id h; simp [Core.createdIds] at h
  | cons op ops ih =>
    intro c id h
    unfold Core.createdIds at h
    split at h
    · rename_i id' heq
      rcases List.mem_cons.mp h with h | h
      · rw [h, (Core.step_created heq).1]
      · exact Nat.le_trans (Core.step_nextId_le c op) (ih _ id h)
    · exact Nat.le_trans (Core.step_nextId_le c op) (ih _ id h)

theorem Core.createdIds_nodup (ops : List CoreOp) : ∀ c : Core, (c.createdIds ops).Nodup := by
  induction ops with
  | nil => intro c; simp [Core.createdIds]
  | cons op ops ih =>
    intro c
    unfold Core.createdIds
    split
    · rename_i id heq
      refine List.nodup_cons.mpr ⟨?_, ih _⟩
      intro hmem
      have h1 := Core.createdIds_ge ops _ id hmem
      have h2 := Core.step_created heq
      omega
    · exact ih _

/-! ## Lemmas on runs against the core -/

theorem joinLoop_nextId (self id : Nat) (exits : List (Nat × Int)) :
    ∀ (c : Core) (r : Int × Option Int) (c' : Core) (rest : List (Nat × Int)),
      joinLoop self id c exits = some (r, c', rest) → c'.nextId = c.nextId := by
  induction exits with
  | nil =>
    intro c r c' rest h
    unfold joinLoop at h
    have hw := Core.wait_nextId c self id
    split at h
    · rename_i heq
      simp only [Option.some.injEq, Prod.mk.injEq] at h
      rw [heq] at hw
      rw [← h.2.1]
      exact hw
    · rename_i heq
      simp only [Option.some.injEq, Prod.mk.injEq] at h
      rw [heq] at hw
      rw [← h.2.1]
      exact hw
    · simp at h
  | cons x exits ih =>
    intro c r c' rest h
    obtain ⟨p, code⟩ := x
    unfold joinLoop at h
    have hw := Core.wait_nextId c self id
    split at h
    · rename_i heq
      simp only [Option.some.injEq, Prod.mk.injEq] at h
      rw [heq] at hw
      rw [← h.2.1]
      exact hw
    · rename_i heq
      simp only [Option.some.injEq, Prod.mk.injEq] at h
      rw [heq] at hw
      rw [← h.2.1]
      exact hw
    · exact (ih _ r c' rest h).trans rfl

theorem mypgr_fresh_ids {σ : Type} (K : Syscalls σ) (μ : σ → Int)
    (hp : ∀ s f a r s', K.printf s f a = some (r, s') → μ s ≤ μ s')
    (he : ∀ s i n a r s', K.exec s i n a = some (r, s') →
      μ s ≤ μ s' ∧ (0 ≤ r → r = μ s ∧ μ s' = μ s + 1))
    (hj : ∀ s p r s', K.join s p = some (r, s') → μ s ≤ μ s')
    (s0 : σ) (init : MypgrLocals) :
    ((execReturns (Mypgr.main K { kernel := s0, locals := init, trace := [] }).1.trace).filter
        fun r => decide (0 ≤ r)).Nodup ∧
      ((execReturns (Mypgr.main K { kernel := s0, locals := init, trace := [] }).1.trace).length = 3 →
        0 ≤ (Mypgr.main K { kernel := s0, locals := init, trace := [] }).1.locals.processID →
        0 ≤ (Mypgr.main K { kernel := s0, locals := init, trace := [] }).1.locals.processID1 →
        (Mypgr.main K { kernel := s0, locals := init, trace := [] }).1.locals.processID ≠
          (Mypgr.main K { kernel := s0, locals := init, trace := [] }).1.locals.processID1) := by
  simp only [Mypgr.main, bind, Prog.bind, sysReadline, sysPrintf, sysExec, sysJoin,
      sysHalt, getLocals, assign, MypgrLocals.store]
  rcases h1 : K.readline s0 10 with _ | ⟨rl, s1⟩
  · simp [execReturns]
  simp only []
  rcases h2 : K.printf s1 _ [] with _ | ⟨p0, s2⟩
  · simp [execReturns]
  simp only []
  rcases h3 : K.printf s2 _ [] with _ | ⟨p1, s3⟩
  · simp [execReturns]
  simp only []
  rcases h4 : K.exec s3 "echo.coff" 1 init.execArgs with _ | ⟨id1, s4⟩
  · simp [execReturns]
  simp only []
  rcases h5 : K.join s4 id1 with _ | ⟨j1, s5⟩
  · simp [execReturns, List.filter_cons]
    split <;> simp
  simp only []
  rcases h6 : K.printf s5 _ _ with _ | ⟨p2, s6⟩
  · simp [execReturns, List.filter_cons]
    split <;> simp
  simp only []
  rcases h7 : K.exec s6 "halt.coff" 1 init.execArgs with _ | ⟨id2, s7⟩
  · simp [execReturns, List.filter_cons]
    split <;> simp
  simp only []
  have e1 := he _ _ _ _ _ _ h4
  have e2 := he _ _ _ _ _ _ h7
  have m5 := hj _ _ _ _ h5
  have m6 := hp _ _ _ _ _ h6
  rcases h8 : K.exec s7 "halt.coff" 2 init.execArgs with _ | ⟨id3, s8⟩
  · have d12 : 0 ≤ id1 → 0 ≤ id2 → id1 ≠ id2 := by omega
    by_cases n1 : 0 ≤ id1 <;> by_cases n2 : 0 ≤ id2 <;>
      simp [execReturns, List.filter_cons, n1, n2]
    exact d12 n1 n2
  simp only []
  have e3 := he _ _ _ _ _ _ h8
  have key : ((List.filter (fun r => decide (0 ≤ r)) [id1, id2, id3]).Nodup) ∧
      (0 ≤ id2 → 0 ≤ id3 → id2 ≠ id3) := by
    have d12 : 0 ≤ id1 → 0 ≤ id2 → id1 ≠ id2 := by omega
    have d13 : 0 ≤ id1 → 0 ≤ id3 → id1 ≠ id3 := by omega
    have d23 : 0 ≤ id2 → 0 ≤ id3 → id2 ≠ id3 := by omega
    refine ⟨?_, d23⟩
    by_cases n1 : 0 ≤ id1 <;> by_cases n2 : 0 ≤ id2 <;> by_cases n3 : 0 ≤ id3 <;>
      simp [List.filter_cons, n1, n2, n3]
    · exact ⟨⟨d12 n1 n2, d13 n1 n3⟩, d23 n2 n3⟩
    · exact d12 n1 n2
    · exact d13 n1 n3
    · exact d23 n2 n3
  rcases h9 : K.join s8 id2 with _ | ⟨j2, s9⟩
  · simpa [execReturns] using key
  simp only []
  rcases h10 : K.join s9 id3 with _ | ⟨j3, s10⟩
  · simpa [execReturns] using key
  simpa [execReturns] using key

theorem World.exec_spec (w w' : World) (image : String) (argc : Int)
    (argv : List (Option String)) (r : Int)
    (h : World.syscalls.exec w image argc argv = some (r, w')) :
    (w.core.nextId : Int) ≤ (w'.core.nextId : Int) ∧
      (0 ≤ r → r = (w.core.nextId : Int) ∧ (w'.core.nextId : Int) = (w.core.nextId : Int) + 1) := by
  simp only [World.syscalls, Option.some.injEq, Prod.mk.injEq] at h
  obtain ⟨hr, hw⟩ := h
  subst hw
  refine ⟨by exact_mod_cast Core.create_nextId_le _ _ _ _, ?_⟩
  intro hpos
  rcases hcr : w.core.create w.self image (argv.take argc.toNat) with ⟨res, c'⟩
  rw [hcr] at hr
  cases res with
  | error e =>
    simp only [execCode] at hr
    omega
  | ok id =>
    obtain ⟨h1, h2, -⟩ := Core.create_ok hcr
    simp only [execCode] at hr
    subst h1
    exact ⟨hr.symm, by exact_mod_cast h2⟩

theorem World.join_spec (w w' : World) (pid : Int) (r : Int × Option Int)
    (h : World.syscalls.join w pid = some (r, w')) :
    (w.core.nextId : Int) ≤ (w'.core.nextId : Int) := by
  simp only [World.syscalls] at h
  split at h
  · simp only [Option.some.injEq, Prod.mk.injEq] at h
    rw [← h.2]
  · rcases hl : joinLoop w.self pid.toNat w.core w.exits with _ | ⟨x, c', rest⟩
    · simp [hl] at h
    · simp only [hl, Option.map_some', Option.some.injEq, Prod.mk.injEq] at h
      rw [← h.2]
      exact_mod_cast Nat.le_of_eq (joinLoop_nextId _ _ _ _ _ _ _ hl).symm

theorem World.printf_spec (w w' : World) (fmt : String) (args : List Int) (r : Int)
    (h : World.syscalls.printf w fmt args = some (r, w')) :
    (w.core.nextId : Int) ≤ (w'.core.nextId : Int) := by
  simp only [World.syscalls, Option.some.injEq, Prod.mk.injEq] at h
  rw [← h.2]

theorem Core.lookup_terminateSelf (c : Core) (self : Nat) (exitCode : Int) (id : Nat) :
    (c.terminateSelf self exitCode).lookup id =
      (c.lookup id).map fun r =>
        if r.id = self ∧ r.state = ProcState.running then
          { r with state := ProcState.finished exitCode }
        else r := by
  simp only [Core.lookup, Core.terminateSelf, List.find?_map]
  congr 2
  funext r
  simp only [Function.comp]
  split <;> rfl

theorem Core.lookup_reap (c : Core) (x id : Nat) :
    (c.reap x).lookup id =
      (c.lookup id).map fun r => if r.id = x then { r with state := ProcState.reaped } else r := by
  simp only [Core.lookup, Core.reap, List.find?_map]
  congr 2
  funext r
  simp only [Function.comp]
  split <;> rfl

theorem Core.lookup_fresh {c : Core} (h : c.WellFormed) (id : Nat) (hid : c.nextId ≤ id) :
    c.lookup id = none := by
  simp only [Core.lookup, List.find?_eq_none]
  intro r hr
  have := h.2 r hr
  simp
  omega

theorem Core.lookup_created {c c1 c2 : Core} {p a b : Nat} {imgA imgB : String}
    {argsA argsB : List (Option String)} (hwf : c.WellFormed)
    (hA : c.create p imgA argsA = (Except.ok a, c1))
    (hB : c1.create p imgB argsB = (Except.ok b, c2)) :
    b = a + 1 ∧
    c2.lookup a = some { id := a, programImage := imgA, argumentVector := argsA,
                         state := ProcState.running, ownerParentId := some p } ∧
      c2.lookup b = some { id := b, programImage := imgB, argumentVector := argsB,
                           state := ProcState.running, ownerParentId := some p } := by
  obtain ⟨ha, hn1, ht1⟩ := Core.create_ok hA
  obtain ⟨hb, -, ht2⟩ := Core.create_ok hB
  have hfa := Core.lookup_fresh hwf a (by omega)
  have hfb := Core.lookup_fresh hwf b (by omega)
  have hab : b = a + 1 := by omega
  simp only [Core.lookup] at hfa hfb ⊢
  rw [ht2, ht1, List.append_assoc]
  have hb' : c1.nextId = a + 1 := by omega
  refine ⟨hab, ?_, ?_⟩
  · rw [List.find?_append, hfa, ← ha]
    simp
  · rw [List.find?_append, hfb, ← ha, hb', hab]
    simp

theorem Core.wait_finished {c : Core} {caller id : Nat} {r : ProcessRecord} {s : Int}
    (hl : c.lookup id = some r) (ho : r.ownerParentId = some caller)
    (hs : r.state = ProcState.finished s) :
    c.wait caller id = (WaitOutcome.status s, c.reap id) := by
  simp [Core.wait, hl, ho, hs]

theorem Core.wait_running {c : Core} {caller id : Nat} {r : ProcessRecord}
    (hl : c.lookup id = some r) (ho : r.ownerParentId = some caller)
    (hs : r.state = ProcState.running) :
    c.wait caller id = (WaitOutcome.blocked, c) := by
  simp [Core.wait, hl, ho, hs]

/-! ## The programs' call sequences -/

/-- C1: in every run of `mypgr` in which each call before `halt` returns, whatever `exec`
and `join` return, the process-control calls issued are exactly `exec("echo.coff")`
returning `id1`, `join(id1)`, `exec("halt.coff")` returning `id2`, `exec("halt.coff")`
returning `id3`, `join(id2)`, `join(id3)`, `halt()`: seven calls in this order, and `halt`
is the last call of the whole trace. -/
theorem mypgr_control_sequence (o : Oracle) (init : MypgrLocals) (id1 id2 id3 : Int)
    (hret : o.Returns) (h1 : o.exec 0 = some id1) (h2 : o.exec 1 = some id2)
    (h3 : o.exec 2 = some id3) :
    controlCalls (runMypgr o init).trace =
        [Event.exec "echo.coff" 1 init.execArgs (some id1),
         Event.join id1 StatusVar.status1 (o.join 0),
         Event.exec "halt.coff" 1 init.execArgs (some id2),
         Event.exec "halt.coff" 2 init.execArgs (some id3),
         Event.join id2 StatusVar.status1 (o.join 1),
         Event.join id3 StatusVar.status1 (o.join 2),
         Event.halt] ∧
      (controlCalls (runMypgr o init).trace).length = 7 ∧
      (runMypgr o init).trace.getLast? = some Event.halt := by
  obtain ⟨hr, hp, -, hj⟩ := hret.answers
  obtain ⟨rl, hrl⟩ := hr 0
  obtain ⟨p0, hp0⟩ := hp 0
  obtain ⟨p1, hp1⟩ := hp 1
  obtain ⟨p2, hp2⟩ := hp 2
  obtain ⟨j1, hj1⟩ := hj 0
  obtain ⟨j2, hj2⟩ := hj 1
  obtain ⟨j3, hj3⟩ := hj 2
  rw [runMypgr_eq o init rl p0 p1 p2 id1 id2 id3 j1 j2 j3 hrl hp0 hp1 hp2 h1 h2 h3 hj1 hj2 hj3]
  simp [controlCalls, Event.isControl, hj1, hj2, hj3]

/-- The sample run of C1: the three `exec` calls return 1, 2 and 3. -/
theorem mypgr_control_sequence_witness :
    sampleOracle.Returns ∧
      controlCalls (runMypgr sampleOracle sampleLocals).trace =
        [Event.exec "echo.coff" 1 (List.replicate 256 none) (some 1),
         Event.join 1 StatusVar.status1 (some (0, some 10)),
         Event.exec "halt.coff" 1 (List.replicate 256 none) (some 2),
         Event.exec "halt.coff" 2 (List.replicate 256 none) (some 3),
         Event.join 2 StatusVar.status1 (some (0, some 11)),
         Event.join 3 StatusVar.status1 (some (0, some 12)),
         Event.halt] :=
  ⟨sampleOracle_returns,
    (mypgr_control_sequence sampleOracle sampleLocals 1 2 3 sampleOracle_returns rfl rfl rfl).1⟩

/-- C4, as stated, fails: in the run of `mypgr` in which every `exec` fails with -1, the
failed id -1 is passed to `join`, three times. -/
theorem failed_exec_id_joined :
    joinsFailedExec (runMypgr failedExecOracle sampleLocals).trace = true ∧
      controlCalls (runMypgr failedExecOracle sampleLocals).trace =
        [Event.exec "echo.coff" 1 (List.replicate 256 none) (some (-1)),
         Event.join (-1) StatusVar.status1 (some (-1, none)),
         Event.exec "halt.coff" 1 (List.replicate 256 none) (some (-1)),
         Event.exec "halt.coff" 2 (List.replicate 256 none) (some (-1)),
         Event.join (-1) StatusVar.status1 (some (-1, none)),
         Event.join (-1) StatusVar.status1 (some (-1, none)),
         Event.halt] := by
  rw [runMypgr_eq failedExecOracle sampleLocals ([], 0) 0 0 0 (-1) (-1) (-1) (-1, none) (-1, none)
      (-1, none) rfl rfl rfl rfl rfl rfl rfl rfl rfl rfl]
  rw [sampleLocals_execArgs]
  refine ⟨?_, ?_⟩
  · simp [joinsFailedExec, joinTargets]
  · rfl

/-- C4, amended: `mypgr` does not test what `exec` returns.  In every run of `mypgr` in
which the calls return, every value returned by `exec`, negative or not, is the target of a
`join` issued after that `exec`, and the program goes on to `halt`.  (Nothing is said here
of `testProgram.c`, which as written has no run.) -/
theorem exec_result_joined_unchecked (o : Oracle) (init : MypgrLocals) (hret : o.Returns) :
    execReturnsJoined (runMypgr o init).trace = true ∧
      (∀ n r, n < 3 → o.exec n = some r → r ∈ joinTargets (runMypgr o init).trace) ∧
      (runMypgr o init).trace.getLast? = some Event.halt := by
  obtain ⟨hr, hp, he, hj⟩ := hret.answers
  obtain ⟨rl, hrl⟩ := hr 0
  obtain ⟨p0, hp0⟩ := hp 0
  obtain ⟨p1, hp1⟩ := hp 1
  obtain ⟨p2, hp2⟩ := hp 2
  obtain ⟨id1, h1⟩ := he 0
  obtain ⟨id2, h2⟩ := he 1
  obtain ⟨id3, h3⟩ := he 2
  obtain ⟨j1, hj1⟩ := hj 0
  obtain ⟨j2, hj2⟩ := hj 1
  obtain ⟨j3, hj3⟩ := hj 2
  rw [runMypgr_eq o init rl p0 p1 p2 id1 id2 id3 j1 j2 j3 hrl hp0 hp1 hp2 h1 h2 h3 hj1 hj2 hj3]
  refine ⟨by simp [execReturnsJoined, joinTargets], ?_, by simp⟩
  intro n r hn hnr
  have hcases : n = 0 ∨ n = 1 ∨ n = 2 := by omega
  rcases hcases with rfl | rfl | rfl
  · rw [h1] at hnr
    cases hnr
    simp [joinTargets]
  · rw [h2] at hnr
    cases hnr
    simp [joinTargets]
  · rw [h3] at hnr
    cases hnr
    simp [joinTargets]

/-- The failing run of C4: each `exec` of `mypgr` returns -1 and -1 is a target of
`join`. -/
theorem exec_result_joined_unchecked_witness :
    failedExecOracle.Returns ∧ failedExecOracle.exec 2 = some (-1) ∧
      (-1 : Int) ∈ joinTargets (runMypgr failedExecOracle sampleLocals).trace :=
  ⟨failedExecOracle_returns, rfl,
    (exec_result_joined_unchecked failedExecOracle sampleLocals failedExecOracle_returns).2.1 2
      (-1) (by decide) rfl⟩

/-- C5, on the code: neither program ever assigns an entry of `execArgs`.  In every run the
vector given to each `exec` is the array as it was when `main` started, and the array is
still so at the end.  From locals whose `execArgs` holds no string, the calls of `mypgr`
carry the counts 1, 1, 2 and those of `testProgram` (its line 13 mended) 1, 1, and at none
of the calls do the first `argc` entries hold strings. -/
theorem exec_vector_never_assigned (o : Oracle) (init : MypgrLocals)
    (init' : TestProgramLocals) :
    (execVectorsAre init.execArgs (runMypgr o init).trace = true ∧
      (runMypgr o init).locals.execArgs = init.execArgs) ∧
    (execVectorsAre init'.execArgs (runTestProgramRepaired o init').trace = true ∧
      (runTestProgramRepaired o init').locals.execArgs = init'.execArgs) ∧
    (execArguments (runMypgr sampleOracle sampleLocals).trace =
        [(1, List.replicate 256 none), (1, List.replicate 256 none),
          (2, List.replicate 256 none)] ∧
      (execArguments (runMypgr sampleOracle sampleLocals).trace).map argvCarries =
        [false, false, false]) ∧
    (execArguments (runTestProgramRepaired sampleOracle sampleTestLocals).trace =
        [(1, List.replicate 256 none), (1, List.replicate 256 none)] ∧
      (execArguments (runTestProgramRepaired sampleOracle sampleTestLocals).trace).map argvCarries =
        [false, false]) := by
  refine ⟨?_, ?_, ?_, ?_⟩
  · simp only [runMypgr, Mypgr.main, bind, Prog.bind, sysReadline, sysPrintf, sysExec, sysJoin,
      sysHalt, getLocals, assign, Oracle.syscalls, MypgrLocals.store]
    cases o.readline 0 <;> simp [execVectorsAre]
    cases o.printf 0 <;> simp [execVectorsAre]
    cases o.printf 1 <;> simp [execVectorsAre]
    cases o.exec 0 <;> simp [execVectorsAre]
    cases o.join 0 <;> simp [execVectorsAre]
    cases o.printf 2 <;> simp [execVectorsAre]
    cases o.exec 1 <;> simp [execVectorsAre]
    cases o.exec 2 <;> simp [execVectorsAre]
    cases o.join 1 <;> simp [execVectorsAre]
    cases o.join 2 <;> simp [execVectorsAre]
  · simp only [runTestProgramRepaired, TestProgram.mainRepaired, bind, Prog.bind, sysReadline, sysPrintf, sysExec,
      sysJoin, sysHalt, getLocals, assign, Oracle.syscalls, TestProgramLocals.store]
    cases o.readline 0 <;> simp [execVectorsAre]
    cases o.printf 0 <;> simp [execVectorsAre]
    cases o.printf 1 <;> simp [execVectorsAre]
    cases o.exec 0 <;> simp [execVectorsAre]
    cases o.join 0 <;> simp [execVectorsAre]
    cases o.printf 2 <;> simp [execVectorsAre]
    cases o.printf 3 <;> simp [execVectorsAre]
    cases o.exec 1 <;> simp [execVectorsAre]
    cases o.join 1 <;> simp [execVectorsAre]
    cases o.printf 4 <;> simp [execVectorsAre]
  · rw [runMypgr_eq sampleOracle sampleLocals (['o', 'k'], 2) 0 0 0 1 2 3 (0, some 10)
      (0, some 11) (0, some 12) rfl rfl rfl rfl rfl rfl rfl rfl rfl rfl]
    simp only [execArguments, sampleLocals_execArgs, List.map]
    rw [argvCarries_unset 1 256 (by decide) (by decide),
      argvCarries_unset 2 256 (by decide) (by decide)]
    exact ⟨trivial, rfl⟩
  · rw [runTestProgramRepaired_eq sampleOracle sampleTestLocals (['o', 'k'], 2) 0 0 0 0 0 1 2
      (0, some 10) (0, some 11) rfl rfl rfl rfl rfl rfl rfl rfl rfl rfl]
    simp only [execArguments, sampleTestLocals_execArgs, List.map]
    rw [argvCarries_unset 1 256 (by decide) (by decide)]
    exact ⟨trivial, rfl⟩

/-! ## The two programs side by side -/

/-- C6, on the code: line 13 of `testProgram.c` gives `exec` two comma-separated arguments,
the second being `1 execArgs`, where line 20 and the three calls of `mypgr.c` give three.
Both programs start with `readline(b, 10)`.  With line 13 read as the three-argument call,
in every run in which the calls return the process-control calls of `testProgram` are
`exec("echo.coff", 1, execArgs)`, the `join` on its id, `exec("halt.coff", 1, execArgs)`,
the `join` on its id and `halt()`, which is the sequence of `mypgr` with its fourth call
(the second `exec("halt.coff")`, count 2) and its sixth call (the `join` on that id)
removed. -/
theorem testProgram_against_mypgr (o : Oracle) (init : MypgrLocals) :
    testProgramExecSites.map (fun c => (c.line, c.slots.length)) = [(13, 2), (20, 3)] ∧
    mypgrExecSites.map (fun c => (c.line, c.slots.length)) = [(24, 3), (29, 3), (33, 3)] ∧
    (runMypgr o init).trace.head? = some (Event.readline 10 (o.readline 0)) ∧
    (runTestProgramRepaired o init.toTestProgram).trace.head? = some (Event.readline 10 (o.readline 0)) ∧
    (o.Returns → ∃ id1 id2 id3, o.exec 0 = some id1 ∧ o.exec 1 = some id2 ∧
      o.exec 2 = some id3 ∧
      controlCalls (runTestProgramRepaired o init.toTestProgram).trace =
        [Event.exec "echo.coff" 1 init.execArgs (some id1),
         Event.join id1 StatusVar.status1 (o.join 0),
         Event.exec "halt.coff" 1 init.execArgs (some id2),
         Event.join id2 StatusVar.status1 (o.join 1),
         Event.halt] ∧
      (controlCalls (runMypgr o init).trace).get? 3 =
        some (Event.exec "halt.coff" 2 init.execArgs (some id3)) ∧
      (controlCalls (runMypgr o init).trace).get? 5 =
        some (Event.join id3 StatusVar.status1 (o.join 2)) ∧
      controlCalls (runTestProgramRepaired o init.toTestProgram).trace =
        ((controlCalls (runMypgr o init).trace).eraseIdx 5).eraseIdx 3) := by
  refine ⟨rfl, rfl, ?_, ?_, ?_⟩
  · simp only [runMypgr, Mypgr.main, bind, Prog.bind, sysReadline, sysPrintf, sysExec, sysJoin,
      sysHalt, getLocals, assign, Oracle.syscalls, MypgrLocals.store]
    cases o.readline 0 <;> simp
    cases o.printf 0 <;> simp
    cases o.printf 1 <;> simp
    cases o.exec 0 <;> simp
    cases o.join 0 <;> simp
    cases o.printf 2 <;> simp
    cases o.exec 1 <;> simp
    cases o.exec 2 <;> simp
    cases o.join 1 <;> simp
    cases o.join 2 <;> simp
  · simp only [runTestProgramRepaired, TestProgram.mainRepaired, bind, Prog.bind, sysReadline, sysPrintf, sysExec,
      sysJoin, sysHalt, getLocals, assign, Oracle.syscalls, TestProgramLocals.store]
    cases o.readline 0 <;> simp
    cases o.printf 0 <;> simp
    cases o.printf 1 <;> simp
    cases o.exec 0 <;> simp
    cases o.join 0 <;> simp
    cases o.printf 2 <;> simp
    cases o.printf 3 <;> simp
    cases o.exec 1 <;> simp
    cases o.join 1 <;> simp
    cases o.printf 4 <;> simp
  · intro hret
    obtain ⟨hr, hp, he, hj⟩ := hret.answers
    obtain ⟨rl, hrl⟩ := hr 0
    obtain ⟨p0, hp0⟩ := hp 0
    obtain ⟨p1, hp1⟩ := hp 1
    obtain ⟨p2, hp2⟩ := hp 2
    obtain ⟨p3, hp3⟩ := hp 3
    obtain ⟨p4, hp4⟩ := hp 4
    obtain ⟨id1, h1⟩ := he 0
    obtain ⟨id2, h2⟩ := he 1
    obtain ⟨id3, h3⟩ := he 2
    obtain ⟨j1, hj1⟩ := hj 0
    obtain ⟨j2, hj2⟩ := hj 1
    obtain ⟨j3, hj3⟩ := hj 2
    refine ⟨id1, id2, id3, h1, h2, h3, ?_⟩
    rw [runMypgr_eq o init rl p0 p1 p2 id1 id2 id3 j1 j2 j3 hrl hp0 hp1 hp2 h1 h2 h3 hj1 hj2 hj3,
      runTestProgramRepaired_eq o init.toTestProgram rl p0 p1 p2 p3 p4 id1 id2 j1 j2 hrl hp0 hp1 hp2 hp3
        hp4 h1 h2 hj1 hj2]
    simp [controlCalls, Event.isControl, MypgrLocals.toTestProgram, hj1, hj2, hj3]

/-- The sample run of C6. -/
theorem testProgram_against_mypgr_witness :
    sampleOracle.Returns ∧
      controlCalls (runTestProgramRepaired sampleOracle sampleLocals.toTestProgram).trace =
        ((controlCalls (runMypgr sampleOracle sampleLocals).trace).eraseIdx 5).eraseIdx 3 :=
  ⟨sampleOracle_returns,
    match (testProgram_against_mypgr sampleOracle sampleLocals).2.2.2.2 sampleOracle_returns with
    | ⟨_, _, _, _, _, _, _, _, _, h⟩ => h⟩

/-! ## Overlapping children -/

/-- C10: in `mypgr` all three `join` calls store through `status1` and `status2` is never
written.  In a run in which the calls return and the last `join` stores `s3`: when `halt`
is reached `status1` holds `s3`, and `status2` (like `processID2`) holds what it held at the
start, as `status2` does at the end of every run; the locals at `halt` are the same whatever
the first `join` returned or stored and whatever the second `join` stored; and the calls
issued, with their arguments, are the same whatever return codes the `join` calls gave,
which are only ever stored in `k` and `l`. -/
theorem mypgr_status_frame (o : Oracle) (init : MypgrLocals) (r3 s3 : Int) (hret : o.Returns)
    (hlast : o.join 2 = some (r3, some s3)) :
    joinPointers (runMypgr o init).trace =
        [StatusVar.status1, StatusVar.status1, StatusVar.status1] ∧
      (runMypgr o init).trace.getLast? = some Event.halt ∧
      (runMypgr o init).locals.status1 = s3 ∧
      (runMypgr o init).locals.status2 = init.status2 ∧
      (runMypgr o init).locals.processID2 = init.processID2 ∧
      (∀ (o' : Oracle) (v : MypgrLocals), (runMypgr o' v).locals.status2 = v.status2) ∧
      (runMypgr o init).locals.l = r3 ∧
      (some (runMypgr o init).locals.k = (o.join 1).map Prod.fst) ∧
      (∀ o' : Oracle, o'.Returns → o'.readline 0 = o.readline 0 →
        (∀ n, o'.exec n = o.exec n) → o'.join 2 = o.join 2 →
        (o'.join 1).map Prod.fst = (o.join 1).map Prod.fst →
        (runMypgr o' init).locals = (runMypgr o init).locals) ∧
      (∀ o' : Oracle, o'.Returns → o'.readline 0 = o.readline 0 →
        (∀ n, o'.printf n = o.printf n) → (∀ n, o'.exec n = o.exec n) →
        (∀ n, (o'.join n).map Prod.snd = (o.join n).map Prod.snd) →
        (runMypgr o' init).trace.map Event.issued = (runMypgr o init).trace.map Event.issued) := by
  obtain ⟨hr, hp, he, hj⟩ := hret.answers
  obtain ⟨rl, hrl⟩ := hr 0
  obtain ⟨p0, hp0⟩ := hp 0
  obtain ⟨p1, hp1⟩ := hp 1
  obtain ⟨p2, hp2⟩ := hp 2
  obtain ⟨id1, h1⟩ := he 0
  obtain ⟨id2, h2⟩ := he 1
  obtain ⟨id3, h3⟩ := he 2
  obtain ⟨j1, hj1⟩ := hj 0
  obtain ⟨j2, hj2⟩ := hj 1
  rw [runMypgr_eq o init rl p0 p1 p2 id1 id2 id3 j1 j2 (r3, some s3) hrl hp0 hp1 hp2 h1 h2 h3 hj1
    hj2 hlast]
  refine ⟨by simp [joinPointers], by simp, by simp, rfl, rfl, ?_, rfl, by simp [hj2], ?_, ?_⟩
  · intro o' v
    simp only [runMypgr, Mypgr.main, bind, Prog.bind, sysReadline, sysPrintf, sysExec, sysJoin,
      sysHalt, getLocals, assign, Oracle.syscalls, MypgrLocals.store]
    cases o'.readline 0 <;> simp
    cases o'.printf 0 <;> simp
    cases o'.printf 1 <;> simp
    cases o'.exec 0 <;> simp
    cases o'.join 0 <;> simp
    cases o'.printf 2 <;> simp
    cases o'.exec 1 <;> simp
    cases o'.exec 2 <;> simp
    cases o'.join 1 <;> simp
    cases o'.join 2 <;> simp
  · intro o' hret' hrl' he' hlast' hcode
    obtain ⟨-, hp', -, hj'⟩ := hret'.answers
    obtain ⟨q0, hq0⟩ := hp' 0
    obtain ⟨q1, hq1⟩ := hp' 1
    obtain ⟨q2, hq2⟩ := hp' 2
    obtain ⟨i1, hi1⟩ := hj' 0
    obtain ⟨i2, hi2⟩ := hj' 1
    rw [runMypgr_eq o' init rl q0 q1 q2 id1 id2 id3 i1 i2 (r3, some s3) (hrl'.trans hrl) hq0 hq1
      hq2 ((he' 0).trans h1) ((he' 1).trans h2) ((he' 2).trans h3) hi1 hi2 (hlast'.trans hlast)]
    rw [hi2, hj2] at hcode
    simp only [Option.map_some', Option.some.injEq] at hcode
    simp [hcode]
  · intro o' hret' hrl' hp' he' hstored
    obtain ⟨-, -, -, hj'⟩ := hret'.answers
    obtain ⟨i1, hi1⟩ := hj' 0
    obtain ⟨i2, hi2⟩ := hj' 1
    obtain ⟨i3, hi3⟩ := hj' 2
    rw [runMypgr_eq o' init rl p0 p1 p2 id1 id2 id3 i1 i2 i3 (hrl'.trans hrl)
      ((hp' 0).trans hp0) ((hp' 1).trans hp1) ((hp' 2).trans hp2) ((he' 0).trans h1)
      ((he' 1).trans h2) ((he' 2).trans h3) hi1 hi2 hi3]
    have hs1 := hstored 0
    rw [hi1, hj1] at hs1
    simp only [Option.map_some', Option.some.injEq] at hs1
    simp [Event.issued, hs1]

/-- The sample run of C10: the three joins store 10, 11 and 12; at `halt` `status1` holds 12
and `status2` still holds the 75 it started with. -/
theorem mypgr_status_frame_witness :
    sampleOracle.Returns ∧ sampleOracle.join 2 = some (0, some 12) ∧
      (runMypgr sampleOracle sampleLocals).locals.status1 = 12 ∧
      (runMypgr sampleOracle sampleLocals).locals.status2 = 75 :=
  have h := mypgr_status_frame sampleOracle sampleLocals 0 12 sampleOracle_returns rfl
  ⟨sampleOracle_returns, rfl, h.2.2.1, h.2.2.2.1⟩

/-! ## Process identities -/

/-- C7: for all sequences of `create` calls the returned ids are pairwise distinct until
reaped, and beyond.  From a well-formed core, whatever sequence of `create`,
`terminateSelf` and `wait` operations follows, the ids that the `create` calls return (a
call that fails returns an error, not an id) are pairwise distinct and differ from every id
already in the table, and the ids of the table stay pairwise distinct.  In every run of
`mypgr` on the core the ids returned by `exec` (the non-negative returns: the error
sentinel is negative) are pairwise distinct; in particular, once the second
`exec("halt.coff")` has returned, the two ids held in `processID` and `processID1` are
different. -/
theorem created_ids_distinct (c : Core) (ops : List CoreOp) (hwf : c.WellFormed) :
    (c.createdIds ops).Nodup ∧
      (∀ id ∈ c.createdIds ops, ∀ r ∈ c.table, r.id ≠ id) ∧
      ((c.run ops).table.map fun r => r.id).Nodup ∧
      (∀ (w : World) (init : MypgrLocals),
        ((execReturns (runMypgrOn w init).trace).filter fun r => decide (0 ≤ r)).Nodup ∧
        ((execReturns (runMypgrOn w init).trace).length = 3 →
          0 ≤ (runMypgrOn w init).locals.processID →
          0 ≤ (runMypgrOn w init).locals.processID1 →
          (runMypgrOn w init).locals.processID ≠ (runMypgrOn w init).locals.processID1)) := by
  refine ⟨Core.createdIds_nodup ops c, ?_, (Core.run_wellFormed ops c hwf).1, ?_⟩
  · intro id hid r hr heq
    have h1 := Core.createdIds_ge ops c id hid
    have h2 := hwf.2 r hr
    omega
  · intro w init
    exact mypgr_fresh_ids World.syscalls (fun w => (w.core.nextId : Int))
      (fun s f a r s' h => World.printf_spec s s' f a r h)
      (fun s i n a r s' h => World.exec_spec s s' i n a r h)
      (fun s p r s' h => World.join_spec s s' p r h) w init

/-- The sample case of C7: on the sample core the creations of the sample sequence return
1, 2 and 3, pairwise distinct; in the run of `mypgr` as root process in which child 3
finishes before child 2, `processID` and `processID1` hold 2 and 3. -/
theorem created_ids_distinct_witness :
    sampleCore.WellFormed ∧ sampleCore.createdIds sampleOps = [1, 2, 3] ∧
      (sampleCore.createdIds sampleOps).Nodup ∧
      execReturns (runMypgrOn (World.boot ["echo.coff", "halt.coff"] 3 [(1, 5), (3, 7), (2, 6)])
        sampleLocals).trace = [1, 2, 3] ∧
      (runMypgrOn (World.boot ["echo.coff", "halt.coff"] 3 [(1, 5), (3, 7), (2, 6)])
          sampleLocals).locals.processID ≠
        (runMypgrOn (World.boot ["echo.coff", "halt.coff"] 3 [(1, 5), (3, 7), (2, 6)])
          sampleLocals).locals.processID1 :=
  have hwf : sampleCore.WellFormed := by
    simp [Core.WellFormed, sampleCore, World.boot]
  have h := created_ids_distinct sampleCore sampleOps hwf
  ⟨hwf, by decide, h.1, by rfl,
    (h.2.2.2 (World.boot ["echo.coff", "halt.coff"] 3 [(1, 5), (3, 7), (2, 6)]) sampleLocals).2
      (by rfl) (by decide) (by decide)⟩

/-! ## Waiting on overlapping children -/

/-- C8: two children created one after the other and waited on in either order each yield
their own status, whichever finishes first.  On the core, after the caller `p` has created
`a` and then `b` from a well-formed core, and both have terminated (with `sA` and `sB`, in
either order), `wait(a)` delivers `sA` and `wait(b)` delivers `sB`, whichever wait comes
first; while only `b` has terminated, `wait(a)` stays suspended and `wait(b)` delivers
`sB`.  In `mypgr` run as the root process, with both images loadable and three slots, the
`echo.coff` child being 1 and the `halt.coff` children 2 and 3: whether 2 finishes before 3
or 3 before 2, `join(2)` returns 0 and stores the status of 2, then `join(3)` returns 0 and
stores the status of 3, and `halt` is reached. -/
theorem waits_deliver_own_status (c c1 c2 : Core) (p a b : Nat) (imgA imgB : String)
    (argsA argsB : List (Option String)) (sA sB : Int) (hwf : c.WellFormed)
    (hA : c.create p imgA argsA = (Except.ok a, c1))
    (hB : c1.create p imgB argsB = (Except.ok b, c2)) :
    a ≠ b ∧
    (∀ c' ∈ [(c2.terminateSelf a sA).terminateSelf b sB, (c2.terminateSelf b sB).terminateSelf a sA],
      ((c'.wait p a).1 = WaitOutcome.status sA ∧
        ((c'.wait p a).2.wait p b).1 = WaitOutcome.status sB) ∧
      ((c'.wait p b).1 = WaitOutcome.status sB ∧
        ((c'.wait p b).2.wait p a).1 = WaitOutcome.status sA)) ∧
    (((c2.terminateSelf b sB).wait p a).1 = WaitOutcome.blocked ∧
      ((c2.terminateSelf b sB).wait p b).1 = WaitOutcome.status sB) ∧
    (∀ (images : List String) (slots : Nat) (rest : List (Nat × Int)) (s1 s2 s3 : Int)
        (init : MypgrLocals), "echo.coff" ∈ images → "halt.coff" ∈ images → 3 ≤ slots →
      ∀ exits ∈ [(1, s1) :: (2, s2) :: (3, s3) :: rest, (1, s1) :: (3, s3) :: (2, s2) :: rest],
        execReturns (runMypgrOn (World.boot images slots exits) init).trace = [1, 2, 3] ∧
        joinResults (runMypgrOn (World.boot images slots exits) init).trace =
          [(1, 0, some s1), (2, 0, some s2), (3, 0, some s3)] ∧
        (runMypgrOn (World.boot images slots exits) init).trace.getLast? = some Event.halt) := by
  obtain ⟨hab, hla, hlb⟩ := Core.lookup_created hwf hA hB
  have hne : a ≠ b := by omega
  have hne' : b ≠ a := by omega
  refine ⟨hne, ?_, ?_, ?_⟩
  · intro c' hc'
    simp only [List.mem_cons, List.mem_singleton, List.not_mem_nil, or_false] at hc'
    rcases hc' with rfl | rfl
    · have h1 : ((c2.terminateSelf a sA).terminateSelf b sB).lookup a = some
          { id := a, programImage := imgA, argumentVector := argsA,
            state := ProcState.finished sA, ownerParentId := some p } := by
        simp [Core.lookup_terminateSelf, hla, hne]
      have h2 : ((c2.terminateSelf a sA).terminateSelf b sB).lookup b = some
          { id := b, programImage := imgB, argumentVector := argsB,
            state := ProcState.finished sB, ownerParentId := some p } := by
        simp [Core.lookup_terminateSelf, hlb, hne']
      rw [Core.wait_finished h1 rfl rfl, Core.wait_finished h2 rfl rfl]
      have h3 : (((c2.terminateSelf a sA).terminateSelf b sB).reap a).lookup b = some
          { id := b, programImage := imgB, argumentVector := argsB,
            state := ProcState.finished sB, ownerParentId := some p } := by
        simp [Core.lookup_reap, h2, hne']
      have h4 : (((c2.terminateSelf a sA).terminateSelf b sB).reap b).lookup a = some
          { id := a, programImage := imgA, argumentVector := argsA,
            state := ProcState.finished sA, ownerParentId := some p } := by
        simp [Core.lookup_reap, h1, hne]
      rw [Core.wait_finished h3 rfl rfl, Core.wait_finished h4 rfl rfl]
      exact ⟨⟨rfl, rfl⟩, rfl, rfl⟩
    · have h1 : ((c2.terminateSelf b sB).terminateSelf a sA).lookup a = some
          { id := a, programImage := imgA, argumentVector := argsA,
            state := ProcState.finished sA, ownerParentId := some p } := by
        simp [Core.lookup_terminateSelf, hla, hne]
      have h2 : ((c2.terminateSelf b sB).terminateSelf a sA).lookup b = some
          { id := b, programImage := imgB, argumentVector := argsB,
            state := ProcState.finished sB, ownerParentId := some p } := by
        simp [Core.lookup_terminateSelf, hlb, hne']
      rw [Core.wait_finished h1 rfl rfl, Core.wait_finished h2 rfl rfl]
      have h3 : (((c2.terminateSelf b sB).terminateSelf a sA).reap a).lookup b = some
          { id := b, programImage := imgB, argumentVector := argsB,
            state := ProcState.finished sB, ownerParentId := some p } := by
        simp [Core.lookup_reap, h2, hne']
      have h4 : (((c2.terminateSelf b sB).terminateSelf a sA).reap b).lookup a = some
          { id := a, programImage := imgA, argumentVector := argsA,
            state := ProcState.finished sA, ownerParentId := some p } := by
        simp [Core.lookup_reap, h1, hne]
      rw [Core.wait_finished h3 rfl rfl, Core.wait_finished h4 rfl rfl]
      exact ⟨⟨rfl, rfl⟩, rfl, rfl⟩
  · have h1 : (c2.terminateSelf b sB).lookup a = some
        { id := a, programImage := imgA, argumentVector := argsA,
          state := ProcState.running, ownerParentId := some p } := by
      simp [Core.lookup_terminateSelf, hla, hne]
    have h2 : (c2.terminateSelf b sB).lookup b = some
        { id := b, programImage := imgB, argumentVector := argsB,
          state := ProcState.finished sB, ownerParentId := some p } := by
      simp [Core.lookup_terminateSelf, hlb]
    rw [Core.wait_running h1 rfl rfl, Core.wait_finished h2 rfl rfl]
    exact ⟨rfl, rfl⟩
  · intro images slots rest s1 s2 s3 init hE hH hS exits hexits
    have n1 : ¬ slots ≤ 1 := by omega
    have n2 : ¬ slots ≤ 2 := by omega
    simp only [List.mem_cons, List.mem_singleton, List.not_mem_nil, or_false] at hexits
    rcases hexits with rfl | rfl <;> rcases rest with _ | ⟨⟨q, code⟩, rest⟩ <;>
      simp [runMypgrOn, Mypgr.main, bind, Prog.bind, sysReadline, sysPrintf, sysExec, sysJoin,
        sysHalt, getLocals, assign, World.syscalls, MypgrLocals.store, World.boot, Core.create,
        hE, hH, Core.running, n1, n2, execCode, joinLoop, Core.wait, Core.lookup,
        Core.terminateSelf, Core.reap, joinResults, execReturns]

/-- The sample case of C8: from the sample core the root creates children 1 and 2; child 2
terminates first, with 6, then child 1 with 5; the waits deliver 5 for child 1 and 6 for
child 2. -/
theorem waits_deliver_own_status_witness :
    sampleCore.WellFormed ∧
      (((((sampleCore.create 0 "halt.coff" []).2.create 0 "halt.coff" []).2.terminateSelf 2
          6).terminateSelf 1 5).wait 0 1).1 = WaitOutcome.status 5 ∧
      joinResults (runMypgrOn (World.boot ["echo.coff", "halt.coff"] 3 [(1, 5), (3, 7), (2, 6)])
          sampleLocals).trace = [(1, 0, some 5), (2, 0, some 6), (3, 0, some 7)] :=
  have hwf : sampleCore.WellFormed := by
    simp [Core.WellFormed, sampleCore, World.boot]
  have h := waits_deliver_own_status sampleCore (sampleCore.create 0 "halt.coff" []).2
    ((sampleCore.create 0 "halt.coff" []).2.create 0 "halt.coff" []).2 0 1 2 "halt.coff"
    "halt.coff" [] [] 5 6 hwf rfl rfl
  ⟨hwf, (h.2.1 _ (List.mem_cons_of_mem _ (List.mem_singleton.mpr rfl))).1.1,
    (h.2.2.2 ["echo.coff", "halt.coff"] 3 [] 5 6 7 sampleLocals (by simp) (by simp)
      (Nat.le_refl 3) _ (List.mem_cons_of_mem _ (List.mem_singleton.mpr rfl))).2.1⟩


end Nachos
